import Mathlib

/-!
Verification development for the MAC-address whitelist authorization service
(`api/mac-auth.js` and its companion modules).  The JavaScript sources are
shallowly embedded: JS `Map`s become association lists with `Map` semantics,
ISO-8601 timestamps become the underlying millisecond integers (`Int`), JS
truthiness of optional strings is modelled explicitly, and file I/O outcomes
are modelled as explicit environment parameters.
-/

namespace MacAuth

/-- Device metadata supplied by a client on a check-access request
(`deviceInfo` in `api/mac-auth.js`). -/
structure DeviceInfo where
  hostname : String
  username : String
  platform : String
  localIP : String
  publicIP : String
  deriving Repr, DecidableEq

/-- One whitelist entry, exactly the object shape created by `handleAddMAC`
in `api/mac-auth.js`: `updatedAt` is absent (`none`) until a tier update
sets it, `lastSeen`/`lastDevice` are `null` until a successful access. -/
structure Entry where
  macAddress : String
  description : String
  accessType : String
  addedAt : Int
  updatedAt : Option Int
  lastSeen : Option Int
  accessCount : Nat
  lastDevice : Option DeviceInfo
  deriving Repr, DecidableEq

/-- The whitelist `Map` of `api/mac-auth.js`, as an insertion-ordered
association list from normalized address to entry. -/
abbrev Store := List (String × Entry)

/-- `macWhitelist.has(k)`. -/
def mapHas (m : Store) (k : String) : Bool :=
  m.any (fun p => p.1 == k)

/-- `macWhitelist.get(k)`. -/
def mapGet (m : Store) (k : String) : Option Entry :=
  (m.find? (fun p => p.1 == k)).map (·.2)

/-- `macWhitelist.set(k, v)`: replace in place if the key is present
(JS `Map` keeps the original insertion position), append otherwise. -/
def mapSet (m : Store) (k : String) (v : Entry) : Store :=
  match m with
  | [] => [(k, v)]
  | p :: rest => if p.1 == k then (k, v) :: rest else p :: mapSet rest k v

/-- `macWhitelist.delete(k)`. -/
def mapDelete (m : Store) (k : String) : Store :=
  m.filter (fun p => p.1 != k)

/-- The `statistics` block of `api/mac-auth.js`. -/
structure Statistics where
  total : Nat
  activeLast24h : Nat
  activeLast7d : Nat
  neverUsed : Nat
  totalAccesses : Nat
  deriving Repr, DecidableEq

/-- Milliseconds in 24 hours, as in `24 * 60 * 60 * 1000`. -/
def msPerDay : Int := 24 * 60 * 60 * 1000

/-- Loop body of `updateStatistics`: classify one entry against the two
time windows and accumulate. -/
def statStep (oneDayAgo oneWeekAgo : Int) (s : Statistics) (e : Entry) : Statistics :=
  let lastSeen : Int := match e.lastSeen with | none => 0 | some t => t
  let s := { s with totalAccesses := s.totalAccesses + e.accessCount }
  if lastSeen == 0 then
    { s with neverUsed := s.neverUsed + 1 }
  else
    let s := if oneDayAgo < lastSeen then { s with activeLast24h := s.activeLast24h + 1 } else s
    if oneWeekAgo < lastSeen then { s with activeLast7d := s.activeLast7d + 1 } else s

/-- `updateStatistics()` from `api/mac-auth.js`: recompute the statistics
block from the current entries against a single sampled `now`. -/
def updateStatistics (m : Store) (now : Int) : Statistics :=
  let oneDayAgo := now - msPerDay
  let oneWeekAgo := now - 7 * msPerDay
  (m.map (·.2)).foldl (statStep oneDayAgo oneWeekAgo)
    { total := m.length, activeLast24h := 0, activeLast7d := 0,
      neverUsed := 0, totalAccesses := 0 }

/-- Module state of `api/mac-auth.js`: the `macWhitelist` map and the
process-wide `statistics` variable. -/
structure ServerState where
  whitelist : Store
  stats : Statistics
  deriving Repr, DecidableEq

/-- The persisted unit produced by `saveMACWhitelist`. -/
structure Snapshot where
  macAddresses : List Entry
  statistics : Statistics
  lastUpdated : Int
  version : String
  deriving Repr, DecidableEq

/-- The snapshot object built by `saveMACWhitelist()` in `api/mac-auth.js`:
current entries, the statistics variable as-is, a timestamp and a version
tag.  The same serialized object is then written to the data file and the
backup file. -/
def saveMACWhitelist (st : ServerState) (now : Int) : Snapshot :=
  { macAddresses := st.whitelist.map (·.2)
    statistics := st.stats
    lastUpdated := now
    version := "1.0" }

/-- `macAddress.toLowerCase()`: character-wise lowercasing (kernel-reducible
model of `String.toLower`; MAC addresses are ASCII). -/
def normalizeMac (s : String) : String := ⟨s.data.map Char.toLower⟩

/-- JS truthiness of an optional string field: absent and `""` are falsy. -/
def truthy : Option String → Bool
  | none => false
  | some s => !(s == "")

/-- `validateAdminKey` from `api/mac-auth.js`: plain string comparison of
the provided key with the configured secret. -/
def validateAdminKey (secret provided : String) : Bool := provided == secret

/-- The `validAccessTypes` list of `api/mac-auth.js`. -/
def validAccessTypes : List String := ["trial", "unlimited", "admin"]

/-- The candidate-scanning loop of `handleCheckAccess`: return the first
candidate (normalized) that is a key of the whitelist, with its entry. -/
def firstMatchEntry (m : Store) : List String → Option (String × Entry)
  | [] => none
  | mac :: rest =>
    match mapGet m (normalizeMac mac) with
    | some e => some (normalizeMac mac, e)
    | none => firstMatchEntry m rest

/-- The sanitized entry view returned by a successful check-access. -/
structure CheckData where
  macAddress : String
  description : String
  accessType : String
  addedAt : Int
  lastSeen : Option Int
  accessCount : Nat
  deriving Repr, DecidableEq

/-- Result of `handleCheckAccess`: HTTP status, `success` flag, response
data, the module state after the call, and the snapshots written by the
persist calls the handler made. -/
structure CheckResult where
  status : Nat
  success : Bool
  data : Option CheckData
  state : ServerState
  written : List Snapshot
  deriving Repr, DecidableEq

/-- `handleCheckAccess` from `api/mac-auth.js`: scan the candidates in
order, 403 if none matches; on a match bump `accessCount`, stamp
`lastSeen`, overwrite `lastDevice` when `deviceInfo` is truthy, and save. -/
def handleCheckAccess (st : ServerState) (macAddresses : List String)
    (deviceInfo : Option DeviceInfo) (now : Int) : CheckResult :=
  if macAddresses.isEmpty then
    { status := 400, success := false, data := none, state := st, written := [] }
  else
    match firstMatchEntry st.whitelist macAddresses with
    | none =>
      { status := 403, success := false, data := none, state := st, written := [] }
    | some (k, e) =>
      let e1 := { e with lastSeen := some now, accessCount := e.accessCount + 1 }
      let e2 := match deviceInfo with
        | some d => { e1 with lastDevice := some d }
        | none => e1
      let st' : ServerState := { st with whitelist := mapSet st.whitelist k e2 }
      { status := 200, success := true
        data := some { macAddress := e2.macAddress, description := e2.description
                       accessType := if e2.accessType == "" then "trial" else e2.accessType
                       addedAt := e2.addedAt, lastSeen := e2.lastSeen
                       accessCount := e2.accessCount }
        state := st'
        written := [saveMACWhitelist st' now] }

/-- Result of the add / update-access mutations. -/
structure AddResult where
  status : Nat
  success : Bool
  entry : Option Entry
  state : ServerState
  written : List Snapshot
  deriving Repr, DecidableEq

/-- The `entry` object literal built by `handleAddMAC`: normalized
address, defaulted description, tier validated-or-defaulted to `"trial"`,
creation timestamp, and zeroed usage bookkeeping. -/
def newEntry (mac : String) (description accessType : Option String) (now : Int) : Entry :=
  { macAddress := normalizeMac mac
    description := match description with
      | some d => if d == "" then "No description" else d
      | none => "No description"
    accessType := match accessType with
      | some t => if validAccessTypes.contains t then t else "trial"
      | none => "trial"
    addedAt := now
    updatedAt := none
    lastSeen := none
    accessCount := 0
    lastDevice := none }

/-- `handleAddMAC` from `api/mac-auth.js`: admin-gated; 400 when the
address is falsy; an invalid or missing `accessType` is silently replaced
by `"trial"`; 409 on duplicate; otherwise create the entry and save. -/
def handleAddMAC (st : ServerState) (secret : String) (macAddress : Option String)
    (description : Option String) (accessType : Option String) (adminKey : String)
    (now : Int) : AddResult :=
  if !(validateAdminKey secret adminKey) then
    { status := 403, success := false, entry := none, state := st, written := [] }
  else if !(truthy macAddress) then
    { status := 400, success := false, entry := none, state := st, written := [] }
  else
    let normalizedMac := normalizeMac (macAddress.getD "")
    if mapHas st.whitelist normalizedMac then
      { status := 409, success := false, entry := none, state := st, written := [] }
    else
      let entry := newEntry (macAddress.getD "") description accessType now
      let st' : ServerState := { st with whitelist := mapSet st.whitelist normalizedMac entry }
      { status := 201, success := true, entry := some entry, state := st'
        written := [saveMACWhitelist st' now] }

/-- The in-place mutation performed by `handleUpdateAccess` on the found
entry: overwrite `accessType`, stamp `updatedAt`. -/
def tierUpdated (e : Entry) (t : String) (now : Int) : Entry :=
  { e with accessType := t, updatedAt := some now }

/-- `handleUpdateAccess` from `api/mac-auth.js`: admin-gated; 400 when
address or tier is falsy or the tier is not in `validAccessTypes`; 404
when the address is absent; otherwise overwrite `accessType`, stamp
`updatedAt`, and save. -/
def handleUpdateAccess (st : ServerState) (secret : String) (macAddress : Option String)
    (accessType : Option String) (adminKey : String) (now : Int) : AddResult :=
  if !(validateAdminKey secret adminKey) then
    { status := 403, success := false, entry := none, state := st, written := [] }
  else if !(truthy macAddress) || !(truthy accessType) then
    { status := 400, success := false, entry := none, state := st, written := [] }
  else
    let normalizedMac := normalizeMac (macAddress.getD "")
    let t := accessType.getD ""
    if !(validAccessTypes.contains t) then
      { status := 400, success := false, entry := none, state := st, written := [] }
    else
      match mapGet st.whitelist normalizedMac with
      | none =>
        { status := 404, success := false, entry := none, state := st, written := [] }
      | some e =>
        let e' := tierUpdated e t now
        let st' : ServerState := { st with whitelist := mapSet st.whitelist normalizedMac e' }
        { status := 200, success := true, entry := some e', state := st'
          written := [saveMACWhitelist st' now] }

/-- Result of `handleRemoveMAC`. -/
structure RemoveResult where
  status : Nat
  success : Bool
  state : ServerState
  written : List Snapshot
  deriving Repr, DecidableEq

/-- `handleRemoveMAC` from `api/mac-auth.js`: admin-gated; 400 when the
address is falsy; 404 when it is absent; otherwise delete the key and
save. -/
def handleRemoveMAC (st : ServerState) (secret : String) (macAddress : Option String)
    (adminKey : String) (now : Int) : RemoveResult :=
  if !(validateAdminKey secret adminKey) then
    { status := 403, success := false, state := st, written := [] }
  else if !(truthy macAddress) then
    { status := 400, success := false, state := st, written := [] }
  else
    let normalizedMac := normalizeMac (macAddress.getD "")
    if !(mapHas st.whitelist normalizedMac) then
      { status := 404, success := false, state := st, written := [] }
    else
      let st' : ServerState := { st with whitelist := mapDelete st.whitelist normalizedMac }
      { status := 200, success := true, state := st'
        written := [saveMACWhitelist st' now] }

/-- One item of a bulk-add batch (`macData` in `handleBulkAdd`). -/
structure BulkItem where
  macAddress : Option String
  description : Option String
  accessType : Option String
  deriving Repr, DecidableEq

/-- One per-item outcome record pushed onto `results` by `handleBulkAdd`. -/
structure BulkItemResult where
  macAddress : String
  success : Bool
  message : String
  deriving Repr, DecidableEq

/-- `macAddress ? macAddress.toLowerCase() : ''` for one bulk item. -/
def bulkNormalized (item : BulkItem) : String :=
  match item.macAddress with
  | some s => if s == "" then "" else normalizeMac s
  | none => ""

/-- The `entry` object literal built for one bulk item (default
description `"Bulk added"`, tier validated-or-defaulted to `"trial"`). -/
def bulkEntry (item : BulkItem) (now : Int) : Entry :=
  { macAddress := bulkNormalized item
    description := match item.description with
      | some d => if d == "" then "Bulk added" else d
      | none => "Bulk added"
    accessType := match item.accessType with
      | some t => if validAccessTypes.contains t then t else "trial"
      | none => "trial"
    addedAt := now
    updatedAt := none
    lastSeen := none
    accessCount := 0
    lastDevice := none }

/-- Loop body of `handleBulkAdd`: accumulate (store, results, addedCount)
over one batch item — the duplicate check runs against the store as
already mutated by the earlier items of the same batch. -/
def bulkStep (now : Int) (acc : Store × List BulkItemResult × Nat)
    (item : BulkItem) : Store × List BulkItemResult × Nat :=
  if !(truthy item.macAddress) then
    (acc.1, acc.2.1 ++ [{ macAddress := "invalid", success := false,
                          message := "Invalid MAC address" }], acc.2.2)
  else if mapHas acc.1 (bulkNormalized item) then
    (acc.1, acc.2.1 ++ [{ macAddress := bulkNormalized item, success := false,
                          message := "Already exists" }], acc.2.2)
  else
    (mapSet acc.1 (bulkNormalized item) (bulkEntry item now),
     acc.2.1 ++ [{ macAddress := bulkNormalized item, success := true,
                   message := "Added successfully" }],
     acc.2.2 + 1)

/-- Result of `handleBulkAdd`. -/
structure BulkResult where
  status : Nat
  success : Bool
  results : List BulkItemResult
  totalProcessed : Nat
  totalAdded : Nat
  state : ServerState
  written : List Snapshot
  deriving Repr, DecidableEq

/-- `handleBulkAdd` from `api/mac-auth.js`: admin-gated; walks the batch
mutating the whitelist incrementally, records a per-item outcome, and
saves once at the end when at least one item was added. -/
def handleBulkAdd (st : ServerState) (secret : String)
    (items : Option (List BulkItem)) (adminKey : String) (now : Int) : BulkResult :=
  if !(validateAdminKey secret adminKey) then
    { status := 403, success := false, results := [], totalProcessed := 0,
      totalAdded := 0, state := st, written := [] }
  else
    match items with
    | none =>
      { status := 400, success := false, results := [], totalProcessed := 0,
        totalAdded := 0, state := st, written := [] }
    | some list =>
      let acc := list.foldl (bulkStep now) (st.whitelist, [], 0)
      let st' : ServerState := { st with whitelist := acc.1 }
      { status := 200, success := true, results := acc.2.1
        totalProcessed := list.length, totalAdded := acc.2.2, state := st'
        written := if acc.2.2 > 0 then [saveMACWhitelist st' now] else [] }

/-! ### The enhanced variant (`api/mac-auth-enhanced.js`, `src/unnamed/part_000`)

`loadFromStorage` reads an ordered list of storage locations and adopts the
first structurally valid snapshot; `saveToStorage` writes the same
serialized snapshot to every configured location independently.  The
outcome of the file system at each location is modelled as an explicit
environment parameter. -/

/-- What reading and JSON-parsing one storage location can yield:
an exception (unreadable or unparseable), or a parsed object whose
`macAddresses` field may be absent/non-array (`none`) or an array. -/
inductive ReadOutcome where
  | failed
  | parsed (macAddresses : Option (List Entry)) (statistics : Option Statistics)
  deriving Repr, DecidableEq

/-- The validity test of `loadFromStorage`:
`parsed.macAddresses && Array.isArray(parsed.macAddresses)`. -/
def validEntries : ReadOutcome → Option (List Entry)
  | .parsed (some es) _ => some es
  | _ => none

/-- The `memoryStore` object of the enhanced variant. -/
structure MemoryStore where
  macAddresses : Store
  statistics : Statistics
  lastLoaded : Option Int
  deriving Repr, DecidableEq

/-- `loadFromStorage` from the enhanced variant: try each source in order;
the first one yielding a parsed object with an array `macAddresses` field
wins (clear the store, repopulate keyed by `entry.macAddress`, merge the
snapshot statistics over the current ones, stamp `lastLoaded`); a read or
parse failure, or an invalid shape, falls through to the next source; if
every source fails the store is cleared to empty. -/
def loadFromStorage (sources : List ReadOutcome) (ms : MemoryStore) (now : Int) :
    MemoryStore :=
  match sources with
  | [] => { ms with macAddresses := [] }
  | s :: rest =>
    match validEntries s with
    | some es =>
      { ms with
        macAddresses := es.foldl (fun m e => mapSet m e.macAddress e) []
        statistics := match s with
          | .parsed _ (some stats) => stats
          | _ => ms.statistics
        lastLoaded := some now }
    | none => loadFromStorage rest ms now

/-- One element of the `results` array built by `saveToStorage`. -/
structure SaveAttemptResult where
  name : String
  success : Bool
  deriving Repr, DecidableEq

/-- The `targets` list of `saveToStorage` (Primary, Backup, Fallback). -/
def saveTargets : List String := ["Primary", "Backup", "Fallback"]

/-- Result of one `saveToStorage` call: the write attempts made (location
name with the payload handed to `fs.writeFile`), the per-location results
array, the in-memory backup, and the returned success flag. -/
structure SaveOutcome where
  writes : List (String × Snapshot)
  results : List SaveAttemptResult
  memoryBackup : Snapshot
  ok : Bool
  deriving Repr, DecidableEq

/-- The snapshot object built by `saveToStorage` (version tag `"2.0"`). -/
def enhancedSnapshot (store : Store) (stats : Statistics) (now : Int) : Snapshot :=
  { macAddresses := store.map (·.2)
    statistics := stats
    lastUpdated := now
    version := "2.0" }

/-- `saveToStorage` from the enhanced variant: serialize once, then loop
over every target inside its own try/catch — `locOk` tells whether the
I/O at that location succeeds — recording a per-location result; keep the
in-memory backup; return `successCount > 0`. -/
def saveToStorage (store : Store) (stats : Statistics) (now : Int)
    (locOk : String → Bool) : SaveOutcome :=
  let data := enhancedSnapshot store stats now
  let results := saveTargets.map (fun t => { name := t, success := locOk t : SaveAttemptResult })
  { writes := saveTargets.map (fun t => (t, data))
    results := results
    memoryBackup := data
    ok := (results.filter (·.success)).length > 0 }

/-! ### Concrete fixtures used to exercise the theorems -/

/-- The zeroed statistics block the module starts with. -/
def stats0 : Statistics :=
  { total := 0, activeLast24h := 0, activeLast7d := 0, neverUsed := 0, totalAccesses := 0 }

/-- A sample whitelist entry. -/
def sampleEntry : Entry :=
  { macAddress := "aa:bb:cc:dd:ee:ff", description := "laptop", accessType := "trial"
    addedAt := 1, updatedAt := none, lastSeen := none, accessCount := 0, lastDevice := none }

/-- A sample server state whose whitelist holds exactly `sampleEntry`. -/
def sampleState : ServerState :=
  { whitelist := [("aa:bb:cc:dd:ee:ff", sampleEntry)], stats := stats0 }

/-- Sample client device metadata. -/
def sampleDevice : DeviceInfo :=
  { hostname := "host", username := "user", platform := "mac"
    localIP := "10.0.0.2", publicIP := "1.2.3.4" }

/-- A sample `memoryStore` for the enhanced variant. -/
def sampleMemory : MemoryStore :=
  { macAddresses := [], statistics := stats0, lastLoaded := none }

/-- The two-item batch sharing one normalized address, used below. -/
def dupBatch : List BulkItem :=
  [⟨some "AA:BB:CC:DD:EE:01", none, none⟩,
   ⟨some "aa:bb:cc:dd:ee:01", some "dup", some "admin"⟩]

/-- An entry that has already been used once, carrying device metadata. -/
def sampleEntryDev : Entry :=
  { sampleEntry with lastSeen := some 2, accessCount := 3, lastDevice := some sampleDevice }

/-- A state holding `sampleEntryDev`. -/
def sampleStateDev : ServerState :=
  { whitelist := [("aa:bb:cc:dd:ee:ff", sampleEntryDev)], stats := stats0 }

/-! ### Basic lemmas about the `Map` embedding -/

theorem mapHas_eq_isSome (m : Store) (k : String) :
    mapHas m k = (mapGet m k).isSome := by
  induction m with
  | nil => rfl
  | cons p rest ih =>
    by_cases h : p.1 = k
    · simp [mapHas, mapGet, List.find?, h]
    · have hb : (p.1 == k) = false := by simpa using h
      simp only [mapHas, mapGet, List.any_cons, List.find?, hb] at *
      simpa [mapHas, mapGet] using ih

theorem mapGet_mapSet_self (m : Store) (k : String) (v : Entry) :
    mapGet (mapSet m k v) k = some v := by
  induction m with
  | nil => simp [mapSet, mapGet, List.find?]
  | cons p rest ih =>
    by_cases h : p.1 = k
    · simp [mapSet, mapGet, List.find?, h]
    · have hb : (p.1 == k) = false := by simpa using h
      simp only [mapSet, hb, if_false]
      simpa [mapGet, List.find?, hb] using ih

theorem mapGet_mapSet_ne (m : Store) (k : String) (v : Entry) (k' : String)
    (h : k' ≠ k) : mapGet (mapSet m k v) k' = mapGet m k' := by
  have hb : (k == k') = false := by simpa using fun e => h e.symm
  induction m with
  | nil => simp [mapSet, mapGet, List.find?, hb]
  | cons p rest ih =>
    by_cases hp : p.1 = k
    · subst hp
      simp [mapSet, mapGet, List.find?, hb]
    · have hpb : (p.1 == k) = false := by simpa using hp
      by_cases hp' : p.1 = k'
      · simp only [mapSet, hpb, Bool.false_eq_true, if_false]
        simp [mapGet, List.find?, hp']
      · have hp'b : (p.1 == k') = false := by simpa using hp'
        simp only [mapSet, hpb, if_false]
        simpa [mapGet, List.find?, hp'b] using ih

theorem mapHas_mapSet_self (m : Store) (k : String) (v : Entry) :
    mapHas (mapSet m k v) k = true := by
  rw [mapHas_eq_isSome, mapGet_mapSet_self]
  rfl

theorem length_mapSet_of_not_has (m : Store) (k : String) (v : Entry)
    (h : mapHas m k = false) : (mapSet m k v).length = m.length + 1 := by
  induction m with
  | nil => rfl
  | cons p rest ih =>
    simp only [mapHas, List.any_cons, Bool.or_eq_false_iff] at h
    simp [mapSet, h.1, ih (by simpa [mapHas] using h.2)]

theorem mapGet_eq_some_of_mapHas (m : Store) (k : String)
    (h : mapHas m k = true) : ∃ e, mapGet m k = some e := by
  rw [mapHas_eq_isSome] at h
  exact Option.isSome_iff_exists.mp h

/-! ### Lemmas about the candidate scan -/

theorem firstMatchEntry_eq_none_iff (m : Store) (macs : List String) :
    firstMatchEntry m macs = none ↔ ∀ c ∈ macs, mapGet m (normalizeMac c) = none := by
  induction macs with
  | nil => simp [firstMatchEntry]
  | cons mac rest ih =>
    cases h : mapGet m (normalizeMac mac) with
    | none => simp [firstMatchEntry, h, ih]
    | some e => simp [firstMatchEntry, h]

theorem mapGet_eq_none_of_not_has (m : Store) (k : String)
    (h : mapHas m k = false) : mapGet m k = none := by
  cases hg : mapGet m k with
  | none => rfl
  | some e => rw [mapHas_eq_isSome, hg] at h; simp at h

theorem firstMatchEntry_sound (m : Store) (macs : List String) (k : String) (e : Entry)
    (h : firstMatchEntry m macs = some (k, e)) : mapGet m k = some e := by
  induction macs with
  | nil => simp [firstMatchEntry] at h
  | cons mac rest ih =>
    cases hg : mapGet m (normalizeMac mac) with
    | none =>
      rw [firstMatchEntry, hg] at h
      exact ih h
    | some e' =>
      rw [firstMatchEntry, hg] at h
      simp only [Option.some.injEq, Prod.mk.injEq] at h
      rw [← h.1, ← h.2]
      exact hg

theorem firstMatchEntry_append (m : Store) (pre : List String) (c : String)
    (post : List String) (e : Entry)
    (hpre : ∀ p ∈ pre, mapGet m (normalizeMac p) = none)
    (hc : mapGet m (normalizeMac c) = some e) :
    firstMatchEntry m (pre ++ c :: post) = some (normalizeMac c, e) := by
  induction pre with
  | nil => simp [firstMatchEntry, hc]
  | cons p rest ih =>
    have hp := hpre p (by simp)
    simp only [List.cons_append, firstMatchEntry, hp]
    exact ih (fun q hq => hpre q (by simp [hq]))

/-! ### Claim theorems -/

/-- **C1.** For every check-access request with a non-empty candidate list,
the candidates are scanned in the order given: whenever every candidate
before `c` misses the store and `c`'s normalized (lowercased) form is a key
of the store, the request is authorized (status 200, success), and the
entire result is unchanged under any replacement of the candidates after
`c`; and the request is denied (403, success=false) if and only if no
candidate's normalized form is a key of the store. -/
theorem checkAccess_first_match_wins (st : ServerState) (dev : Option DeviceInfo) (now : Int) :
    (∀ (pre post post' : List String) (c : String),
      (∀ p ∈ pre, mapHas st.whitelist (normalizeMac p) = false) →
      mapHas st.whitelist (normalizeMac c) = true →
      (handleCheckAccess st (pre ++ c :: post) dev now).status = 200 ∧
      (handleCheckAccess st (pre ++ c :: post) dev now).success = true ∧
      handleCheckAccess st (pre ++ c :: post) dev now =
        handleCheckAccess st (pre ++ c :: post') dev now) ∧
    (∀ macs : List String, macs ≠ [] →
      ((handleCheckAccess st macs dev now).status = 403 ∧
       (handleCheckAccess st macs dev now).success = false ↔
       ∀ c ∈ macs, mapHas st.whitelist (normalizeMac c) = false)) := by
  constructor
  · intro pre post post' c hpre hc
    obtain ⟨e, he⟩ := mapGet_eq_some_of_mapHas _ _ hc
    have hpre' : ∀ p ∈ pre, mapGet st.whitelist (normalizeMac p) = none :=
      fun p hp => mapGet_eq_none_of_not_has _ _ (hpre p hp)
    have h1 := firstMatchEntry_append st.whitelist pre c post e hpre' he
    have h2 := firstMatchEntry_append st.whitelist pre c post' e hpre' he
    have hne : (pre ++ c :: post).isEmpty = false := by simp
    have hne' : (pre ++ c :: post').isEmpty = false := by simp
    refine ⟨?_, ?_, ?_⟩ <;> simp [handleCheckAccess, hne, hne', h1, h2]
  · intro macs hmacs
    have hne : macs.isEmpty = false := by
      cases macs with
      | nil => exact absurd rfl hmacs
      | cons a l => rfl
    cases hf : firstMatchEntry st.whitelist macs with
    | none =>
      have hall := (firstMatchEntry_eq_none_iff _ _).mp hf
      constructor
      · intro _ c hcm
        rw [mapHas_eq_isSome, hall c hcm]
        rfl
      · intro _
        simp [handleCheckAccess, hne, hf]
    | some pe =>
      obtain ⟨k, e⟩ := pe
      have hstat : (handleCheckAccess st macs dev now).status = 200 := by
        simp [handleCheckAccess, hne, hf]
      constructor
      · intro hcontra
        have h43 := hcontra.1
        rw [hstat] at h43
        omega
      · intro hall
        have hnone : firstMatchEntry st.whitelist macs = none :=
          (firstMatchEntry_eq_none_iff _ _).mpr
            (fun c hc => mapGet_eq_none_of_not_has _ _ (hall c hc))
        rw [hf] at hnone
        cases hnone

/-- Witness for C1 at a concrete state: an unlisted candidate first, the
listed one second, a trailing candidate that does not affect the result;
and a denial when no candidate is listed. -/
theorem checkAccess_first_match_wins_witness :
    (handleCheckAccess sampleState ["zz", "AA:BB:CC:DD:EE:FF", "x"] none 5).status = 200 ∧
    handleCheckAccess sampleState ["zz", "AA:BB:CC:DD:EE:FF", "x"] none 5 =
      handleCheckAccess sampleState ["zz", "AA:BB:CC:DD:EE:FF"] none 5 ∧
    (handleCheckAccess sampleState ["zz"] none 5).status = 403 ∧
    (handleCheckAccess sampleState ["zz"] none 5).success = false := by
  have h := checkAccess_first_match_wins sampleState none 5
  have h1 := h.1 ["zz"] ["x"] [] "AA:BB:CC:DD:EE:FF"
    (by decide) (by decide)
  have h2 := (h.2 ["zz"] (by simp)).mpr (by decide)
  exact ⟨h1.1, h1.2.2, h2.1, h2.2⟩

/-- **C2.** On every successful check-access match with device metadata
supplied, the matched entry's `accessCount` goes up by exactly one, its
`lastSeen` is set to the current time, its `lastDevice` is overwritten
with the supplied metadata, and exactly one persist of the updated state
is triggered; and adding a new address then checking access with it
yields authorized=true with `accessCount` going from 0 to 1. -/
theorem checkAccess_match_bookkeeping :
    (∀ (st : ServerState) (macs : List String) (d : DeviceInfo) (now : Int)
       (k : String) (e : Entry),
      firstMatchEntry st.whitelist macs = some (k, e) →
      (handleCheckAccess st macs (some d) now).status = 200 ∧
      (handleCheckAccess st macs (some d) now).success = true ∧
      mapGet (handleCheckAccess st macs (some d) now).state.whitelist k =
        some { e with lastSeen := some now, accessCount := e.accessCount + 1,
                      lastDevice := some d } ∧
      (handleCheckAccess st macs (some d) now).written =
        [saveMACWhitelist (handleCheckAccess st macs (some d) now).state now]) ∧
    (∀ (st : ServerState) (secret mac key : String) (desc atype : Option String)
       (d : DeviceInfo) (now1 now2 : Int),
      validateAdminKey secret key = true →
      (mac == "") = false →
      mapHas st.whitelist (normalizeMac mac) = false →
      (handleAddMAC st secret (some mac) desc atype key now1).success = true ∧
      ((handleAddMAC st secret (some mac) desc atype key now1).entry.map
        (·.accessCount)) = some 0 ∧
      (handleCheckAccess (handleAddMAC st secret (some mac) desc atype key now1).state
        [mac] (some d) now2).success = true ∧
      ((handleCheckAccess (handleAddMAC st secret (some mac) desc atype key now1).state
        [mac] (some d) now2).data.map (·.accessCount)) = some 1) := by
  constructor
  · intro st macs d now k e hfind
    cases macs with
    | nil => simp [firstMatchEntry] at hfind
    | cons mac rest =>
      have hne : (mac :: rest).isEmpty = false := rfl
      refine ⟨?_, ?_, ?_, ?_⟩ <;>
        simp [handleCheckAccess, hne, hfind, mapGet_mapSet_self]
  · intro st secret mac key desc atype d now1 now2 hkey hmac hhas
    have hadd : handleAddMAC st secret (some mac) desc atype key now1 =
        { status := 201, success := true
          entry := some (newEntry mac desc atype now1)
          state := { st with whitelist :=
                       mapSet st.whitelist (normalizeMac mac) (newEntry mac desc atype now1) }
          written := [saveMACWhitelist
            { st with whitelist :=
                mapSet st.whitelist (normalizeMac mac) (newEntry mac desc atype now1) } now1] } := by
      simp [handleAddMAC, hkey, truthy, hmac, hhas]
    rw [hadd]
    have hget := mapGet_mapSet_self st.whitelist (normalizeMac mac) (newEntry mac desc atype now1)
    have hfind : firstMatchEntry
        (mapSet st.whitelist (normalizeMac mac) (newEntry mac desc atype now1)) [mac] =
        some (normalizeMac mac, newEntry mac desc atype now1) := by
      rw [firstMatchEntry, hget]
    refine ⟨rfl, by simp [newEntry], ?_, ?_⟩ <;>
      (simp [handleCheckAccess, hfind]; try simp [newEntry])

/-- Witness for C2: the sample state already holds the address with
`accessCount = 0`; checking access with device metadata bumps it to 1,
stamps `lastSeen`, overwrites `lastDevice`; and the add-then-check
scenario on an empty store ends at `accessCount = 1`. -/
theorem checkAccess_match_bookkeeping_witness :
    mapGet ((handleCheckAccess sampleState ["AA:BB:CC:DD:EE:FF"]
        (some sampleDevice) 7).state.whitelist) "aa:bb:cc:dd:ee:ff" =
      some { sampleEntry with lastSeen := some 7, accessCount := 1,
                              lastDevice := some sampleDevice } ∧
    ((handleCheckAccess
        (handleAddMAC { whitelist := [], stats := stats0 } "adm"
          (some "AA:BB:CC:DD:EE:FF") none none "adm" 3).state
        ["AA:BB:CC:DD:EE:FF"] (some sampleDevice) 7).data.map (·.accessCount)) = some 1 := by
  have h := checkAccess_match_bookkeeping
  constructor
  · exact (h.1 sampleState ["AA:BB:CC:DD:EE:FF"] sampleDevice 7 "aa:bb:cc:dd:ee:ff"
      sampleEntry (by decide)).2.2.1
  · exact (h.2 { whitelist := [], stats := stats0 } "adm" "AA:BB:CC:DD:EE:FF" "adm"
      none none sampleDevice 3 7 (by decide) (by decide) (by decide)).2.2.2

/-- **C3 (counterexample).** The claim "statistics are recomputed from the
entries before every persist, so every written snapshot is self-consistent"
fails on the code: starting from the empty store with zeroed statistics,
`handleAddMAC` adds one entry and triggers a persist, and the snapshot that
persist writes contains 1 entry while its statistics block still says
`total = 0`, differing from the statistics derived from its entries
(`updateStatistics` would give `total = 1`). -/
theorem snapshot_stats_stale_after_add :
    (handleAddMAC { whitelist := [], stats := stats0 } "adm"
        (some "aa:bb:cc:dd:ee:ff") none none "adm" 1000).written =
      [saveMACWhitelist (handleAddMAC { whitelist := [], stats := stats0 } "adm"
        (some "aa:bb:cc:dd:ee:ff") none none "adm" 1000).state 1000] ∧
    (saveMACWhitelist (handleAddMAC { whitelist := [], stats := stats0 } "adm"
        (some "aa:bb:cc:dd:ee:ff") none none "adm" 1000).state 1000).macAddresses.length = 1 ∧
    (saveMACWhitelist (handleAddMAC { whitelist := [], stats := stats0 } "adm"
        (some "aa:bb:cc:dd:ee:ff") none none "adm" 1000).state 1000).statistics.total = 0 ∧
    (updateStatistics (handleAddMAC { whitelist := [], stats := stats0 } "adm"
        (some "aa:bb:cc:dd:ee:ff") none none "adm" 1000).state.whitelist 1000).total = 1 ∧
    (saveMACWhitelist (handleAddMAC { whitelist := [], stats := stats0 } "adm"
        (some "aa:bb:cc:dd:ee:ff") none none "adm" 1000).state 1000).statistics ≠
      updateStatistics (handleAddMAC { whitelist := [], stats := stats0 } "adm"
        (some "aa:bb:cc:dd:ee:ff") none none "adm" 1000).state.whitelist 1000 := by
  refine ⟨?_, ?_, ?_, ?_, ?_⟩ <;> decide

/-- **C3 (amended).** The persist procedure does *not* recompute the
statistics block: the snapshot it writes carries the process-wide
`statistics` variable unchanged (and the entries as they are), and the
mutation handlers (`add`, `remove`, `check-access`, `bulk-add`) leave that
variable untouched — `updateStatistics` is invoked only by the list-macs
handler — so a snapshot persisted right after a mutation can carry
statistics inconsistent with its own entries. -/
theorem snapshot_serializes_stats_verbatim :
    (∀ (st : ServerState) (now : Int),
      (saveMACWhitelist st now).statistics = st.stats ∧
      (saveMACWhitelist st now).macAddresses = st.whitelist.map (·.2)) ∧
    (∀ (st : ServerState) (secret : String) (mac desc atype : Option String)
       (key : String) (now : Int),
      (handleAddMAC st secret mac desc atype key now).state.stats = st.stats) ∧
    (∀ (st : ServerState) (secret : String) (mac : Option String) (key : String) (now : Int),
      (handleRemoveMAC st secret mac key now).state.stats = st.stats) ∧
    (∀ (st : ServerState) (macs : List String) (dev : Option DeviceInfo) (now : Int),
      (handleCheckAccess st macs dev now).state.stats = st.stats) ∧
    (∀ (st : ServerState) (secret : String) (items : Option (List BulkItem))
       (key : String) (now : Int),
      (handleBulkAdd st secret items key now).state.stats = st.stats) := by
  refine ⟨fun st now => ⟨rfl, rfl⟩, ?_, ?_, ?_, ?_⟩
  · intro st secret mac desc atype key now
    by_cases h1 : validateAdminKey secret key = true
    · by_cases h2 : truthy mac = true
      · by_cases h3 : mapHas st.whitelist (normalizeMac (mac.getD "")) = true
        · simp [handleAddMAC, h1, h2, h3]
        · simp [handleAddMAC, h1, h2, h3]
      · simp [handleAddMAC, h1, h2]
    · simp [handleAddMAC, h1]
  · intro st secret mac key now
    by_cases h1 : validateAdminKey secret key = true
    · by_cases h2 : truthy mac = true
      · by_cases h3 : mapHas st.whitelist (normalizeMac (mac.getD "")) = true
        · simp [handleRemoveMAC, h1, h2, h3]
        · simp [handleRemoveMAC, h1, h2, h3]
      · simp [handleRemoveMAC, h1, h2]
    · simp [handleRemoveMAC, h1]
  · intro st macs dev now
    by_cases h1 : macs.isEmpty = true
    · simp [handleCheckAccess, h1]
    · cases hf : firstMatchEntry st.whitelist macs with
      | none => simp [handleCheckAccess, h1, hf]
      | some pe =>
        obtain ⟨k, e⟩ := pe
        simp [handleCheckAccess, h1, hf]
  · intro st secret items key now
    by_cases h1 : validateAdminKey secret key = true
    · cases items with
      | none => simp [handleBulkAdd, h1]
      | some list => simp [handleBulkAdd, h1]
    · simp [handleBulkAdd, h1]

/-- **C4.** Every `saveToStorage` call attempts a write of the same
serialized snapshot at every configured storage location — the attempt
list covers `saveTargets` exactly, every payload is the one serialized
snapshot, and each location's recorded outcome depends only on that
location's own I/O result, so one location's failure neither prevents the
other attempts nor aborts the operation — and the call reports overall
success if and only if at least one location accepted the write, next to
the per-location success/failure records. -/
theorem saveToStorage_redundant (store : Store) (stats : Statistics) (now : Int)
    (locOk : String → Bool) :
    ((saveToStorage store stats now locOk).writes.map Prod.fst = saveTargets ∧
     ∀ w ∈ (saveToStorage store stats now locOk).writes,
       w.2 = enhancedSnapshot store stats now) ∧
    ((saveToStorage store stats now locOk).results.map (·.name) = saveTargets ∧
     ∀ r ∈ (saveToStorage store stats now locOk).results, r.success = locOk r.name) ∧
    ((saveToStorage store stats now locOk).ok = true ↔
      ∃ t ∈ saveTargets, locOk t = true) := by
  cases h1 : locOk "Primary" <;> cases h2 : locOk "Backup" <;>
    cases h3 : locOk "Fallback" <;>
    simp [saveToStorage, saveTargets, enhancedSnapshot, h1, h2, h3]

/-- Witness for C4: with only the Backup location writable, every location
still gets an attempt, the per-location records name all three targets,
and the save still reports overall success. -/
theorem saveToStorage_redundant_witness :
    (saveToStorage sampleState.whitelist stats0 3 (fun t => t == "Backup")).ok = true ∧
    ((saveToStorage sampleState.whitelist stats0 3 (fun t => t == "Backup")).results.map (·.name)) = saveTargets ∧
    ((saveToStorage sampleState.whitelist stats0 3 (fun t => t == "Backup")).writes.map Prod.fst) = saveTargets := by
  have h := saveToStorage_redundant sampleState.whitelist stats0 3 (fun t => t == "Backup")
  refine ⟨?_, h.2.1.1, h.1.1⟩
  exact h.2.2.mpr ⟨"Backup", by decide, by decide⟩

/-- **C5.** A load scans the ordered storage locations and the resulting
store contents are exactly the entries of the first location yielding a
structurally valid snapshot (one whose `macAddresses` field is an array),
keyed by each entry's address — the locations after it are ignored
entirely — and when no location yields valid data the store ends up empty
(the load is a total function: this outcome is returned normally, not
raised as an error). -/
theorem loadFromStorage_first_valid (ms : MemoryStore) (now : Int) :
    (∀ (pre post post' : List ReadOutcome) (v : ReadOutcome) (es : List Entry),
      (∀ s ∈ pre, validEntries s = none) →
      validEntries v = some es →
      (loadFromStorage (pre ++ v :: post) ms now).macAddresses =
        es.foldl (fun m e => mapSet m e.macAddress e) [] ∧
      loadFromStorage (pre ++ v :: post) ms now =
        loadFromStorage (pre ++ v :: post') ms now) ∧
    (∀ sources : List ReadOutcome,
      (∀ s ∈ sources, validEntries s = none) →
      (loadFromStorage sources ms now).macAddresses = []) := by
  constructor
  · intro pre post post' v es hpre hv
    induction pre with
    | nil =>
      cases v with
      | failed => simp [validEntries] at hv
      | parsed mes stats? =>
        cases mes with
        | none => simp [validEntries] at hv
        | some es' =>
          simp only [validEntries, Option.some.injEq] at hv
          subst hv
          exact ⟨rfl, rfl⟩
    | cons p rest ih =>
      have hp := hpre p (by simp)
      simp only [List.cons_append, loadFromStorage, hp]
      exact ih (fun q hq => hpre q (by simp [hq]))
  · intro sources hall
    induction sources with
    | nil => rfl
    | cons s rest ih =>
      have hs := hall s (by simp)
      simp only [loadFromStorage, hs]
      exact ih (fun q hq => hall q (by simp [hq]))

/-- Witness for C5: two invalid locations (an unreadable one and one whose
parsed object has no entries array) are skipped, the third (valid) wins
and a trailing valid location is ignored; and a scan where every location
is invalid ends with the empty store. -/
theorem loadFromStorage_first_valid_witness :
    (loadFromStorage [ReadOutcome.failed, ReadOutcome.parsed none none,
        ReadOutcome.parsed (some [sampleEntry]) (some stats0),
        ReadOutcome.parsed (some []) none] sampleMemory 9).macAddresses =
      [("aa:bb:cc:dd:ee:ff", sampleEntry)] ∧
    (loadFromStorage [ReadOutcome.failed] sampleMemory 9).macAddresses = [] := by
  have h := loadFromStorage_first_valid sampleMemory 9
  constructor
  · have h1 := h.1 [ReadOutcome.failed, ReadOutcome.parsed none none]
      [ReadOutcome.parsed (some []) none] []
      (ReadOutcome.parsed (some [sampleEntry]) (some stats0)) [sampleEntry]
      (by decide) (by decide)
    have h1' := h1.1
    simp only [List.cons_append, List.nil_append] at h1'
    rw [h1']
    decide
  · exact h.2 [ReadOutcome.failed] (by decide)

theorem bulkStep_foldl_invariant (now : Int) (items : List BulkItem)
    (store : Store) (results : List BulkItemResult) (added : Nat) :
    (items.foldl (bulkStep now) (store, results, added)).2.1.length =
      results.length + items.length ∧
    (items.foldl (bulkStep now) (store, results, added)).2.2 +
      (results.filter (·.success)).length =
      added +
        ((items.foldl (bulkStep now) (store, results, added)).2.1.filter
          (·.success)).length := by
  induction items generalizing store results added with
  | nil => simp
  | cons item rest ih =>
    simp only [List.foldl_cons]
    by_cases h1 : truthy item.macAddress = true
    · by_cases h2 : mapHas store (bulkNormalized item) = true
      · have hstep : bulkStep now (store, results, added) item =
            (store, results ++ [{ macAddress := bulkNormalized item, success := false,
                                  message := "Already exists" }], added) := by
          simp [bulkStep, h1, h2]
        rw [hstep]
        have h := ih store
          (results ++ [{ macAddress := bulkNormalized item, success := false,
                         message := "Already exists" }]) added
        simp only [List.filter_append, List.length_append] at h ⊢
        simp at h ⊢
        omega
      · have hstep : bulkStep now (store, results, added) item =
            (mapSet store (bulkNormalized item) (bulkEntry item now),
             results ++ [{ macAddress := bulkNormalized item, success := true,
                           message := "Added successfully" }], added + 1) := by
          simp [bulkStep, h1, h2]
        rw [hstep]
        have h := ih (mapSet store (bulkNormalized item) (bulkEntry item now))
          (results ++ [{ macAddress := bulkNormalized item, success := true,
                         message := "Added successfully" }]) (added + 1)
        simp only [List.filter_append, List.length_append] at h ⊢
        simp at h ⊢
        omega
    · have hstep : bulkStep now (store, results, added) item =
          (store, results ++ [{ macAddress := "invalid", success := false,
                                message := "Invalid MAC address" }], added) := by
        simp [bulkStep, h1]
      rw [hstep]
      have h := ih store
        (results ++ [{ macAddress := "invalid", success := false,
                       message := "Invalid MAC address" }]) added
      simp only [List.filter_append, List.length_append] at h ⊢
      simp at h ⊢
      omega

/-- **C6.** Every bulk-add batch yields one outcome record per item, its
added counter equals the number of success records, and the persist is
performed exactly once at the end — and only when at least one item was
added; moreover the per-item duplicate check runs against the store as
mutated by the earlier items of the same batch: a batch of two items with
the same normalized address (not yet in the store) adds the first, reports
the second as a duplicate skip, and grows the store by exactly one entry. -/
theorem bulkAdd_batch_semantics :
    (∀ (st : ServerState) (secret : String) (list : List BulkItem)
       (key : String) (now : Int),
      validateAdminKey secret key = true →
      (handleBulkAdd st secret (some list) key now).results.length = list.length ∧
      (handleBulkAdd st secret (some list) key now).totalAdded =
        ((handleBulkAdd st secret (some list) key now).results.filter
          (·.success)).length ∧
      (handleBulkAdd st secret (some list) key now).written =
        (if 0 < (handleBulkAdd st secret (some list) key now).totalAdded then
          [saveMACWhitelist (handleBulkAdd st secret (some list) key now).state now]
         else [])) ∧
    (∀ (st : ServerState) (secret key a b : String) (d1 d2 t1 t2 : Option String)
       (now : Int),
      validateAdminKey secret key = true →
      (a == "") = false →
      (b == "") = false →
      normalizeMac a = normalizeMac b →
      mapHas st.whitelist (normalizeMac a) = false →
      ((handleBulkAdd st secret
          (some [⟨some a, d1, t1⟩, ⟨some b, d2, t2⟩]) key now).results.map
        (·.success)) = [true, false] ∧
      ((handleBulkAdd st secret
          (some [⟨some a, d1, t1⟩, ⟨some b, d2, t2⟩]) key now).results.map
        (·.message)) = ["Added successfully", "Already exists"] ∧
      (handleBulkAdd st secret
          (some [⟨some a, d1, t1⟩, ⟨some b, d2, t2⟩]) key now).state.whitelist.length =
        st.whitelist.length + 1 ∧
      (handleBulkAdd st secret
          (some [⟨some a, d1, t1⟩, ⟨some b, d2, t2⟩]) key now).written.length = 1) := by
  constructor
  · intro st secret list key now hkey
    have h := bulkStep_foldl_invariant now list st.whitelist [] 0
    simp only [List.length_nil, List.filter_nil, Nat.zero_add, Nat.add_zero] at h
    refine ⟨?_, ?_, ?_⟩ <;> simp [handleBulkAdd, hkey] <;> omega
  · intro st secret key a b d1 d2 t1 t2 now hkey ha hb heq hhas
    have hna : bulkNormalized ⟨some a, d1, t1⟩ = normalizeMac a := by
      simp [bulkNormalized, ha]
    have hnb : bulkNormalized ⟨some b, d2, t2⟩ = normalizeMac a := by
      rw [heq]
      simp [bulkNormalized, hb]
    have hta : truthy (some a) = true := by simp [truthy, ha]
    have htb : truthy (some b) = true := by simp [truthy, hb]
    have hstep1 : bulkStep now (st.whitelist, [], 0) ⟨some a, d1, t1⟩ =
        (mapSet st.whitelist (normalizeMac a) (bulkEntry ⟨some a, d1, t1⟩ now),
         [{ macAddress := normalizeMac a, success := true,
            message := "Added successfully" }], 1) := by
      simp [bulkStep, hta, hna, hhas]
    have hstep2 : bulkStep now
        (mapSet st.whitelist (normalizeMac a) (bulkEntry ⟨some a, d1, t1⟩ now),
         [{ macAddress := normalizeMac a, success := true,
            message := "Added successfully" }], 1) ⟨some b, d2, t2⟩ =
        (mapSet st.whitelist (normalizeMac a) (bulkEntry ⟨some a, d1, t1⟩ now),
         [{ macAddress := normalizeMac a, success := true,
            message := "Added successfully" },
          { macAddress := normalizeMac a, success := false,
            message := "Already exists" }], 1) := by
      simp [bulkStep, htb, hnb, mapHas_mapSet_self]
    have hlen := length_mapSet_of_not_has st.whitelist (normalizeMac a)
      (bulkEntry ⟨some a, d1, t1⟩ now) hhas
    refine ⟨?_, ?_, ?_, ?_⟩ <;>
      simp [handleBulkAdd, hkey, hstep1, hstep2, hlen]

/-- Witness for C6: a batch whose two items share a normalized address —
first added, second reported a duplicate skip, store grows by one, one
persist; and an all-skipped (empty) batch triggers no persist. -/
theorem bulkAdd_batch_semantics_witness :
    ((handleBulkAdd { whitelist := [], stats := stats0 } "adm" (some dupBatch) "adm" 4).results.map (·.success)) = [true, false] ∧
    ((handleBulkAdd { whitelist := [], stats := stats0 } "adm" (some dupBatch) "adm" 4).state.whitelist.length) = 1 ∧
    ((handleBulkAdd { whitelist := [], stats := stats0 } "adm" (some dupBatch) "adm" 4).written.length) = 1 ∧
    (handleBulkAdd sampleState "adm" (some []) "adm" 4).results.length = 0 ∧
    (handleBulkAdd sampleState "adm" (some []) "adm" 4).written = [] := by
  have h2 := bulkAdd_batch_semantics.2 { whitelist := [], stats := stats0 } "adm" "adm"
    "AA:BB:CC:DD:EE:01" "aa:bb:cc:dd:ee:01" none (some "dup") none (some "admin") 4
    (by decide) (by decide) (by decide) (by decide) (by decide)
  have h1 := bulkAdd_batch_semantics.1 sampleState "adm" [] "adm" 4 (by decide)
  refine ⟨h2.1, h2.2.2.1, h2.2.2.2, h1.1, ?_⟩
  have hw := h1.2.2
  rw [hw]
  have ht : (handleBulkAdd sampleState "adm" (some []) "adm" 4).totalAdded = 0 := by decide
  rw [ht]
  simp

/-- **C7.** Removing a normalized address that is not a key of the store
fails with 404 and leaves the store (and its size) unchanged, with no
persist. -/
theorem removeMAC_not_found (st : ServerState) (secret mac key : String) (now : Int)
    (hkey : validateAdminKey secret key = true)
    (hmac : (mac == "") = false)
    (h : mapHas st.whitelist (normalizeMac mac) = false) :
    (handleRemoveMAC st secret (some mac) key now).status = 404 ∧
    (handleRemoveMAC st secret (some mac) key now).success = false ∧
    (handleRemoveMAC st secret (some mac) key now).state = st ∧
    (handleRemoveMAC st secret (some mac) key now).state.whitelist.length =
      st.whitelist.length ∧
    (handleRemoveMAC st secret (some mac) key now).written = [] := by
  refine ⟨?_, ?_, ?_, ?_, ?_⟩ <;> simp [handleRemoveMAC, hkey, truthy, hmac, h]

/-- Witness for C7: removing a never-added address from the sample state. -/
theorem removeMAC_not_found_witness :
    (handleRemoveMAC sampleState "adm" (some "11:22:33:44:55:66") "adm" 5).status = 404 ∧
    (handleRemoveMAC sampleState "adm" (some "11:22:33:44:55:66") "adm" 5).state = sampleState := by
  have h := removeMAC_not_found sampleState "adm" "11:22:33:44:55:66" "adm" 5
    (by decide) (by decide) (by decide)
  exact ⟨h.1, h.2.2.1⟩

/-- **C8.** A tier update on an existing entry with a valid tier changes
only that entry's `accessType` and `updatedAt` (the result is literally the
old entry with just those two fields replaced, so `macAddress`,
`description`, `addedAt`, `lastSeen`, `accessCount` and `lastDevice` are
untouched), leaves every other key of the store unchanged, and leaves the
statistics variable unchanged; and `addedAt` is also preserved by the other
in-place mutation, the check-access bookkeeping update. -/
theorem updateAccess_frame (st : ServerState) (secret mac t key : String) (now : Int)
    (e : Entry)
    (hkey : validateAdminKey secret key = true)
    (hmac : (mac == "") = false)
    (htne : (t == "") = false)
    (ht : validAccessTypes.contains t = true)
    (he : mapGet st.whitelist (normalizeMac mac) = some e) :
    (handleUpdateAccess st secret (some mac) (some t) key now).status = 200 ∧
    (handleUpdateAccess st secret (some mac) (some t) key now).success = true ∧
    mapGet (handleUpdateAccess st secret (some mac) (some t) key now).state.whitelist
        (normalizeMac mac) = some { e with accessType := t, updatedAt := some now } ∧
    (∀ k', k' ≠ normalizeMac mac →
      mapGet (handleUpdateAccess st secret (some mac) (some t) key now).state.whitelist k' =
        mapGet st.whitelist k') ∧
    (handleUpdateAccess st secret (some mac) (some t) key now).state.stats = st.stats ∧
    (∀ (macs : List String) (dev : Option DeviceInfo) (now2 : Int) (k' : String) (e' : Entry),
      mapGet (handleCheckAccess st macs dev now2).state.whitelist k' = some e' →
      ∃ e0, mapGet st.whitelist k' = some e0 ∧ e'.addedAt = e0.addedAt) := by
  have hupd : handleUpdateAccess st secret (some mac) (some t) key now =
      { status := 200, success := true
        entry := some (tierUpdated e t now)
        state := { st with whitelist :=
                     mapSet st.whitelist (normalizeMac mac) (tierUpdated e t now) }
        written := [saveMACWhitelist
          { st with whitelist :=
              mapSet st.whitelist (normalizeMac mac) (tierUpdated e t now) } now] } := by
    have ht' : t ∈ validAccessTypes := by simpa using ht
    simp [handleUpdateAccess, hkey, truthy, hmac, htne, ht', he]
  rw [hupd]
  refine ⟨rfl, rfl, mapGet_mapSet_self _ _ _, ?_, rfl, ?_⟩
  · intro k' hk'
    exact mapGet_mapSet_ne _ _ _ _ hk'
  · intro macs dev now2 k' e' hmem
    cases hemp : macs.isEmpty with
    | true =>
      simp [handleCheckAccess, hemp] at hmem
      exact ⟨e', hmem, rfl⟩
    | false =>
      cases hf : firstMatchEntry st.whitelist macs with
      | none =>
        simp [handleCheckAccess, hemp, hf] at hmem
        exact ⟨e', hmem, rfl⟩
      | some pe =>
        obtain ⟨k0, e0⟩ := pe
        have hg0 := firstMatchEntry_sound st.whitelist macs k0 e0 hf
        cases dev with
        | none =>
          simp only [handleCheckAccess, hemp, Bool.false_eq_true, if_false, hf] at hmem
          by_cases hk : k' = k0
          · subst hk
            rw [mapGet_mapSet_self] at hmem
            simp only [Option.some.injEq] at hmem
            subst hmem
            exact ⟨e0, hg0, rfl⟩
          · rw [mapGet_mapSet_ne _ _ _ _ hk] at hmem
            exact ⟨e', hmem, rfl⟩
        | some d =>
          simp only [handleCheckAccess, hemp, Bool.false_eq_true, if_false, hf] at hmem
          by_cases hk : k' = k0
          · subst hk
            rw [mapGet_mapSet_self] at hmem
            simp only [Option.some.injEq] at hmem
            subst hmem
            exact ⟨e0, hg0, rfl⟩
          · rw [mapGet_mapSet_ne _ _ _ _ hk] at hmem
            exact ⟨e', hmem, rfl⟩

/-- Witness for C8: updating the sample entry to `unlimited` replaces only
the tier and the update stamp. -/
theorem updateAccess_frame_witness :
    mapGet (handleUpdateAccess sampleState "adm" (some "AA:BB:CC:DD:EE:FF") (some "unlimited") "adm" 9).state.whitelist "aa:bb:cc:dd:ee:ff" =
      some { sampleEntry with accessType := "unlimited", updatedAt := some 9 } ∧
    (handleUpdateAccess sampleState "adm" (some "AA:BB:CC:DD:EE:FF") (some "unlimited") "adm" 9).status = 200 := by
  have h := updateAccess_frame sampleState "adm" "AA:BB:CC:DD:EE:FF" "unlimited" "adm" 9
    sampleEntry (by decide) (by decide) (by decide) (by decide) (by decide)
  exact ⟨h.2.2.1, h.1⟩

/-- **C9.** A check-access match with no device metadata still authorizes
and still bumps `accessCount`/`lastSeen` (the stored entry becomes the old
one with only those two fields replaced, so `lastDevice` is left as it
was), and still triggers exactly one persist. -/
theorem checkAccess_no_deviceInfo (st : ServerState) (macs : List String) (now : Int)
    (k : String) (e : Entry)
    (hfind : firstMatchEntry st.whitelist macs = some (k, e)) :
    (handleCheckAccess st macs none now).status = 200 ∧
    (handleCheckAccess st macs none now).success = true ∧
    mapGet (handleCheckAccess st macs none now).state.whitelist k =
      some { e with lastSeen := some now, accessCount := e.accessCount + 1 } ∧
    ((mapGet (handleCheckAccess st macs none now).state.whitelist k).map (·.lastDevice)) =
      some e.lastDevice ∧
    (handleCheckAccess st macs none now).written.length = 1 := by
  cases macs with
  | nil => simp [firstMatchEntry] at hfind
  | cons mac rest =>
    have hne : (mac :: rest).isEmpty = false := rfl
    refine ⟨?_, ?_, ?_, ?_, ?_⟩ <;>
      simp [handleCheckAccess, hne, hfind, mapGet_mapSet_self]

/-- Witness for C9: checking access without device metadata bumps the
count from 3 to 4 and keeps the previously recorded device. -/
theorem checkAccess_no_deviceInfo_witness :
    (handleCheckAccess sampleStateDev ["aa:bb:cc:dd:ee:ff"] none 11).success = true ∧
    mapGet (handleCheckAccess sampleStateDev ["aa:bb:cc:dd:ee:ff"] none 11).state.whitelist "aa:bb:cc:dd:ee:ff" =
      some { sampleEntryDev with lastSeen := some 11, accessCount := 4 } := by
  have h := checkAccess_no_deviceInfo sampleStateDev ["aa:bb:cc:dd:ee:ff"] 11
    "aa:bb:cc:dd:ee:ff" sampleEntryDev (by decide)
  exact ⟨h.2.1, h.2.2.1⟩

/-- **C10.** `handleAddMAC` (valid admin key, non-duplicate address)
succeeds with 201 for *every* `accessType` input: a missing or invalid
tier is silently replaced by `"trial"` and never reported as a validation
error, while a valid tier is kept; in contrast, `handleUpdateAccess`
rejects an invalid tier with a 400 outcome, an unchanged state and no
persist. -/
theorem addMAC_accepts_any_tier :
    (∀ (st : ServerState) (secret mac key : String) (desc atype : Option String)
       (now : Int),
      validateAdminKey secret key = true →
      (mac == "") = false →
      mapHas st.whitelist (normalizeMac mac) = false →
      (handleAddMAC st secret (some mac) desc atype key now).status = 201 ∧
      (handleAddMAC st secret (some mac) desc atype key now).success = true ∧
      (atype = none →
        ((handleAddMAC st secret (some mac) desc atype key now).entry.map
          (·.accessType)) = some "trial") ∧
      (∀ t', atype = some t' → validAccessTypes.contains t' = false →
        ((handleAddMAC st secret (some mac) desc atype key now).entry.map
          (·.accessType)) = some "trial") ∧
      (∀ t', atype = some t' → validAccessTypes.contains t' = true →
        ((handleAddMAC st secret (some mac) desc atype key now).entry.map
          (·.accessType)) = some t')) ∧
    (∀ (st : ServerState) (secret mac t key : String) (now : Int),
      validateAdminKey secret key = true →
      (mac == "") = false →
      (t == "") = false →
      validAccessTypes.contains t = false →
      (handleUpdateAccess st secret (some mac) (some t) key now).status = 400 ∧
      (handleUpdateAccess st secret (some mac) (some t) key now).success = false ∧
      (handleUpdateAccess st secret (some mac) (some t) key now).state = st ∧
      (handleUpdateAccess st secret (some mac) (some t) key now).written = []) := by
  constructor
  · intro st secret mac key desc atype now hkey hmac hhas
    refine ⟨?_, ?_, ?_, ?_, ?_⟩
    · simp [handleAddMAC, hkey, truthy, hmac, hhas]
    · simp [handleAddMAC, hkey, truthy, hmac, hhas]
    · rintro rfl
      simp [handleAddMAC, hkey, truthy, hmac, hhas, newEntry]
    · rintro t' rfl hft
      have hft' : t' ∉ validAccessTypes := by simpa using hft
      simp [handleAddMAC, hkey, truthy, hmac, hhas, newEntry, hft']
    · rintro t' rfl hft
      have hft' : t' ∈ validAccessTypes := by simpa using hft
      simp [handleAddMAC, hkey, truthy, hmac, hhas, newEntry, hft']
  · intro st secret mac t key now hkey hmac ht hft
    have hft' : t ∉ validAccessTypes := by simpa using hft
    refine ⟨?_, ?_, ?_, ?_⟩ <;>
      simp [handleUpdateAccess, hkey, truthy, hmac, ht, hft']

/-- Witness for C10: adding with the invalid tier `"bogus"` succeeds and
stores `"trial"`, while update-access with `"bogus"` is rejected with 400. -/
theorem addMAC_accepts_any_tier_witness :
    (handleAddMAC { whitelist := [], stats := stats0 } "adm" (some "AA:BB:CC:DD:EE:02") none (some "bogus") "adm" 5).status = 201 ∧
    ((handleAddMAC { whitelist := [], stats := stats0 } "adm" (some "AA:BB:CC:DD:EE:02") none (some "bogus") "adm" 5).entry.map (·.accessType)) = some "trial" ∧
    (handleUpdateAccess sampleState "adm" (some "aa:bb:cc:dd:ee:ff") (some "bogus") "adm" 5).status = 400 := by
  have h1 := addMAC_accepts_any_tier.1 { whitelist := [], stats := stats0 } "adm"
    "AA:BB:CC:DD:EE:02" "adm" none (some "bogus") 5 (by decide) (by decide) (by decide)
  have h2 := addMAC_accepts_any_tier.2 sampleState "adm" "aa:bb:cc:dd:ee:ff" "bogus" "adm" 5
    (by decide) (by decide) (by decide) (by decide)
  exact ⟨h1.1, h1.2.2.2.1 "bogus" rfl (by decide), h2.1⟩

end MacAuth
